import Mathlib

/-!
Verification of the NBL rating engine (`src/utils/utils/ratings.py`).

The Python class `RatingSystem` keeps a dict `ratings : team id → float`,
a cosmetic dict `team_mapping : team id → display name`, two parameters
`k` and `home_adv`, and an append-only list `game_history` of per-game
audit records.  We embed the dict as an association list over
`String × ℚ` with Python-dict semantics: lookup finds the first binding,
assignment replaces the first binding of the key or appends a fresh one.
Python float arithmetic is idealised as exact rational arithmetic.
`datetime.now().isoformat()` is nondeterministic wall-clock input, so the
embedding of `play_game` takes the timestamp string as an explicit
argument; no other behaviour depends on it.
-/

namespace NBL

/-- The rating dict of the Python class: an association list from team id
to rating. -/
abbrev Ratings := List (String × ℚ)

/-- First binding of `t`, as a Python dict lookup. -/
def findRating : Ratings → String → Option ℚ
  | [], _ => none
  | (team, v) :: rest, t => if team = t then some v else findRating rest t

/-- `self.ratings.get(t, 0.0)`. -/
def getD (m : Ratings) (t : String) : ℚ :=
  (findRating m t).getD 0

/-- `self.ratings[t] = v`: replace the first binding of `t`, else append
a new binding (Python dict insertion order). -/
def setEntry : Ratings → String → ℚ → Ratings
  | [], t, v => [(t, v)]
  | (team, w) :: rest, t, v =>
      if team = t then (t, v) :: rest else (team, w) :: setEntry rest t v

/-- `t in self.ratings`. -/
def hasKey (m : Ratings) (t : String) : Bool :=
  (findRating m t).isSome

/-- `sum(self.ratings.values())`. -/
def sumRatings (m : Ratings) : ℚ :=
  (m.map Prod.snd).sum

/-- `self.team_mapping.get(t, t)` over the display-name dict. -/
def getName : List (String × String) → String → String
  | [], t => t
  | (team, n) :: rest, t => if team = t then n else getName rest t

/-- The dict built and appended to `self.game_history` by `play_game`. -/
structure GameRecord where
  timestamp : String
  home : String
  away : String
  home_score : ℤ
  away_score : ℤ
  home_rating_before : ℚ
  away_rating_before : ℚ
  home_rating_after : ℚ
  away_rating_after : ℚ
  expected_mov : ℚ
  actual_mov : ℤ
  delta_rating : ℚ
  home_team_full : String
  away_team_full : String
deriving Repr, DecidableEq

/-- State of the Python class `RatingSystem`. -/
structure RatingSystem where
  ratings : Ratings
  team_mapping : List (String × String)
  k : ℚ
  home_adv : ℚ
  game_history : List GameRecord
deriving Repr

/-- `RatingSystem.__init__`: stores the initial ratings, name mapping and
parameters as given and starts with an empty game history. -/
def mkRatingSystem (initial_ratings : Ratings)
    (team_mapping : List (String × String)) (k home_adv : ℚ) : RatingSystem :=
  { ratings := initial_ratings
    team_mapping := team_mapping
    k := k
    home_adv := home_adv
    game_history := [] }

/-- `RatingSystem.expected_mov`. -/
def RatingSystem.expected_mov (rs : RatingSystem)
    (home_rating away_rating : ℚ) : ℚ :=
  home_rating + rs.home_adv - away_rating

/-- `RatingSystem.delta_rating`. -/
def RatingSystem.delta_rating (rs : RatingSystem)
    (actual_mov expected_mov : ℚ) : ℚ :=
  rs.k * (actual_mov - expected_mov)

/-- `RatingSystem.play_game`, as explicit state passing: takes the
timestamp string produced by `datetime.now().isoformat()` as an input and
returns the updated state together with the returned record.  Note that
the `home_rating_after` / `away_rating_after` fields are read back from
`self.ratings` after BOTH assignments, exactly as in the source. -/
def RatingSystem.play_game (rs : RatingSystem) (ts : String)
    (home away : String) (home_score away_score : ℤ) :
    RatingSystem × GameRecord :=
  let home_rating := getD rs.ratings home
  let away_rating := getD rs.ratings away
  let actual_mov : ℤ := home_score - away_score
  let exp_mov := rs.expected_mov home_rating away_rating
  let dr := rs.delta_rating (actual_mov : ℚ) exp_mov
  let newRatings := setEntry (setEntry rs.ratings home (home_rating + dr))
      away (away_rating - dr)
  let game_result : GameRecord :=
    { timestamp := ts
      home := home
      away := away
      home_score := home_score
      away_score := away_score
      home_rating_before := home_rating
      away_rating_before := away_rating
      home_rating_after := getD newRatings home
      away_rating_after := getD newRatings away
      expected_mov := exp_mov
      actual_mov := actual_mov
      delta_rating := dr
      home_team_full := getName rs.team_mapping home
      away_team_full := getName rs.team_mapping away }
  ({ rs with
      ratings := newRatings
      game_history := rs.game_history ++ [game_result] }, game_result)

/-- `RatingSystem.get_team_rating`. -/
def RatingSystem.get_team_rating (rs : RatingSystem) (team : String) : ℚ :=
  getD rs.ratings team

/-- Result dict of `RatingSystem.predict_game`. -/
structure Prediction where
  home : String
  away : String
  home_rating : ℚ
  away_rating : ℚ
  expected_mov : ℚ
  home_win_probability : ℝ

/-- `RatingSystem._mov_to_probability`: `1 / (1 + math.exp(-mov / 10))`. -/
noncomputable def mov_to_probability (mov : ℝ) : ℝ :=
  1 / (1 + Real.exp (-mov / 10))

/-- `RatingSystem.predict_game`, as explicit state passing.  The method
body contains no assignment to `self`, so the state component returned is
the input state unchanged. -/
noncomputable def RatingSystem.predict_game (rs : RatingSystem)
    (home away : String) : RatingSystem × Prediction :=
  let home_rating := getD rs.ratings home
  let away_rating := getD rs.ratings away
  let expected := rs.expected_mov home_rating away_rating
  (rs,
    { home := home
      away := away
      home_rating := home_rating
      away_rating := away_rating
      expected_mov := expected
      home_win_probability := mov_to_probability (expected : ℝ) })

/-- One submitted game result: the four arguments of a `play_game` call. -/
structure GameInput where
  home : String
  away : String
  home_score : ℤ
  away_score : ℤ
deriving Repr, DecidableEq

/-- Feed an ordered sequence of (timestamp, game result) pairs through
`play_game`. -/
def runGames : RatingSystem → List (String × GameInput) → RatingSystem
  | rs, [] => rs
  | rs, (ts, g) :: rest =>
      runGames (rs.play_game ts g.home g.away g.home_score g.away_score).1 rest

/-- The game inputs stored inside a logged record (used for replay). -/
def inputOfRecord (r : GameRecord) : GameInput :=
  { home := r.home
    away := r.away
    home_score := r.home_score
    away_score := r.away_score }

/-- Erase the wall-clock timestamp of a record. -/
def stripTs (r : GameRecord) : GameRecord :=
  { r with timestamp := "" }

/-! Basic lemmas about the dict model. -/

theorem findRating_setEntry_self (m : Ratings) (t : String) (v : ℚ) :
    findRating (setEntry m t v) t = some v := by
  induction m with
  | nil => simp [setEntry, findRating]
  | cons p rest ih =>
      obtain ⟨team, w⟩ := p
      by_cases h : team = t
      · simp [setEntry, findRating, h]
      · simp [setEntry, findRating, h, ih]

theorem findRating_setEntry_ne (m : Ratings) (t u : String) (v : ℚ)
    (h : u ≠ t) : findRating (setEntry m t v) u = findRating m u := by
  have h' : t ≠ u := fun hh => h hh.symm
  induction m with
  | nil => simp [setEntry, findRating, h']
  | cons p rest ih =>
      obtain ⟨team, w⟩ := p
      by_cases ht : team = t
      · subst ht
        simp [setEntry, findRating, h']
      · simp [setEntry, findRating, ht, ih]

theorem getD_setEntry_self (m : Ratings) (t : String) (v : ℚ) :
    getD (setEntry m t v) t = v := by
  simp [getD, findRating_setEntry_self]

theorem getD_setEntry_ne (m : Ratings) (t u : String) (v : ℚ) (h : u ≠ t) :
    getD (setEntry m t v) u = getD m u := by
  simp [getD, findRating_setEntry_ne m t u v h]

theorem hasKey_setEntry (m : Ratings) (t u : String) (v : ℚ) :
    hasKey (setEntry m t v) u = if u = t then true else hasKey m u := by
  by_cases h : u = t
  · subst h; simp [hasKey, findRating_setEntry_self]
  · simp [hasKey, findRating_setEntry_ne m t u v h, h]

theorem sumRatings_setEntry (m : Ratings) (t : String) (v : ℚ) :
    sumRatings (setEntry m t v) = sumRatings m + v - getD m t := by
  induction m with
  | nil => simp [setEntry, sumRatings, getD, findRating]
  | cons p rest ih =>
      obtain ⟨team, w⟩ := p
      by_cases h : team = t
      · simp [setEntry, sumRatings, getD, findRating, h]
        ring
      · simp only [setEntry, h, if_false, sumRatings, List.map_cons,
          List.sum_cons, getD, findRating] at *
        rw [ih]
        ring

/-! Characterisation of one `play_game` call. -/

/-- **C1** (amended: the two participant ids must be distinct).  A
`play_game` call computes `expected_mov`, `actual_mov` and the delta by
the stated formulas and, when `home ≠ away`, sets the home rating to
`before + delta` and the away rating to `before - delta`. -/
theorem play_game_update_rule (rs : RatingSystem) (ts home away : String)
    (home_score away_score : ℤ) (hne : home ≠ away) :
    (rs.play_game ts home away home_score away_score).2.expected_mov
      = getD rs.ratings home + rs.home_adv - getD rs.ratings away ∧
    (rs.play_game ts home away home_score away_score).2.actual_mov
      = home_score - away_score ∧
    (rs.play_game ts home away home_score away_score).2.delta_rating
      = rs.k * (((home_score - away_score : ℤ) : ℚ)
          - (getD rs.ratings home + rs.home_adv - getD rs.ratings away)) ∧
    getD (rs.play_game ts home away home_score away_score).1.ratings home
      = getD rs.ratings home
        + rs.k * (((home_score - away_score : ℤ) : ℚ)
          - (getD rs.ratings home + rs.home_adv - getD rs.ratings away)) ∧
    getD (rs.play_game ts home away home_score away_score).1.ratings away
      = getD rs.ratings away
        - rs.k * (((home_score - away_score : ℤ) : ℚ)
          - (getD rs.ratings home + rs.home_adv - getD rs.ratings away)) := by
  simp only [RatingSystem.play_game, RatingSystem.expected_mov,
    RatingSystem.delta_rating]
  refine ⟨by trivial, by trivial, by trivial, ?_, ?_⟩
  · rw [getD_setEntry_ne _ _ _ _ hne, getD_setEntry_self]
  · rw [getD_setEntry_self]

/-- Witness for `play_game_update_rule` at a concrete call. -/
theorem play_game_update_rule_witness :
    ("A" : String) ≠ "B" ∧
    (((mkRatingSystem [] [] (1/20) (11/5)).play_game "t" "A" "B" 90 85).2.expected_mov
        = getD ([] : Ratings) "A" + (11/5 : ℚ) - getD ([] : Ratings) "B" ∧
      ((mkRatingSystem [] [] (1/20) (11/5)).play_game "t" "A" "B" 90 85).2.actual_mov
        = 90 - 85 ∧
      (((mkRatingSystem [] [] (1/20) (11/5)).play_game "t" "A" "B" 90 85).2.delta_rating
        = (1/20 : ℚ) * (((90 - 85 : ℤ) : ℚ)
            - (getD ([] : Ratings) "A" + (11/5 : ℚ) - getD ([] : Ratings) "B"))) ∧
      getD ((mkRatingSystem [] [] (1/20) (11/5)).play_game "t" "A" "B" 90 85).1.ratings "A"
        = getD ([] : Ratings) "A"
          + (1/20 : ℚ) * (((90 - 85 : ℤ) : ℚ)
            - (getD ([] : Ratings) "A" + (11/5 : ℚ) - getD ([] : Ratings) "B")) ∧
      getD ((mkRatingSystem [] [] (1/20) (11/5)).play_game "t" "A" "B" 90 85).1.ratings "B"
        = getD ([] : Ratings) "B"
          - (1/20 : ℚ) * (((90 - 85 : ℤ) : ℚ)
            - (getD ([] : Ratings) "A" + (11/5 : ℚ) - getD ([] : Ratings) "B"))) :=
  ⟨by decide,
   play_game_update_rule (mkRatingSystem [] [] (1/20) (11/5)) "t" "A" "B" 90 85
     (by decide)⟩

/-- **C1** counterexample: in a self-game (`home = away = "A"`), the away
assignment overwrites the home one, so the final rating of `"A"` is NOT
`homeRatingBefore + delta` as the claim demands for every call. -/
theorem play_game_update_rule_cex :
    ¬ (getD ((mkRatingSystem [] [] (1/20) (11/5)).play_game "t" "A" "A" 1 0).1.ratings "A"
        = getD ([] : Ratings) "A"
          + (1/20 : ℚ) * (((1 - 0 : ℤ) : ℚ)
            - (getD ([] : Ratings) "A" + (11/5 : ℚ) - getD ([] : Ratings) "A"))) := by
  simp [mkRatingSystem, RatingSystem.play_game, RatingSystem.expected_mov,
    RatingSystem.delta_rating, getD, findRating, setEntry]
  norm_num

/-- **C3** (amended: the two participant ids must be distinct).  When
`home ≠ away`, the record returned by `play_game` — the one appended to
the game history — satisfies `home_rating_after = home_rating_before +
delta_rating` and `away_rating_after = away_rating_before -
delta_rating`. -/
theorem game_record_invariant (rs : RatingSystem) (ts home away : String)
    (home_score away_score : ℤ) (hne : home ≠ away) :
    (rs.play_game ts home away home_score away_score).2.home_rating_after
      = (rs.play_game ts home away home_score away_score).2.home_rating_before
        + (rs.play_game ts home away home_score away_score).2.delta_rating ∧
    (rs.play_game ts home away home_score away_score).2.away_rating_after
      = (rs.play_game ts home away home_score away_score).2.away_rating_before
        - (rs.play_game ts home away home_score away_score).2.delta_rating ∧
    (rs.play_game ts home away home_score away_score).1.game_history
      = rs.game_history ++ [(rs.play_game ts home away home_score away_score).2] := by
  simp only [RatingSystem.play_game, RatingSystem.expected_mov,
    RatingSystem.delta_rating]
  refine ⟨?_, ?_, by trivial⟩
  · rw [getD_setEntry_ne _ _ _ _ hne, getD_setEntry_self]
  · rw [getD_setEntry_self]

/-- Witness for `game_record_invariant` at a concrete call. -/
theorem game_record_invariant_witness :
    ("A" : String) ≠ "B" ∧
    (((mkRatingSystem [] [] (1/20) (11/5)).play_game "t" "A" "B" 90 85).2.home_rating_after
        = ((mkRatingSystem [] [] (1/20) (11/5)).play_game "t" "A" "B" 90 85).2.home_rating_before
          + ((mkRatingSystem [] [] (1/20) (11/5)).play_game "t" "A" "B" 90 85).2.delta_rating ∧
      ((mkRatingSystem [] [] (1/20) (11/5)).play_game "t" "A" "B" 90 85).2.away_rating_after
        = ((mkRatingSystem [] [] (1/20) (11/5)).play_game "t" "A" "B" 90 85).2.away_rating_before
          - ((mkRatingSystem [] [] (1/20) (11/5)).play_game "t" "A" "B" 90 85).2.delta_rating ∧
      ((mkRatingSystem [] [] (1/20) (11/5)).play_game "t" "A" "B" 90 85).1.game_history
        = (mkRatingSystem [] [] (1/20) (11/5)).game_history
          ++ [((mkRatingSystem [] [] (1/20) (11/5)).play_game "t" "A" "B" 90 85).2]) :=
  ⟨by decide,
   game_record_invariant (mkRatingSystem [] [] (1/20) (11/5)) "t" "A" "B" 90 85
     (by decide)⟩

/-- **C3** counterexample: the record of a self-game violates
`home_rating_after = home_rating_before + delta_rating` (the stored
after-value is read back from the dict after both assignments, so it is
`before - delta`, not `before + delta`). -/
theorem game_record_invariant_cex :
    ¬ (((mkRatingSystem [] [] (1/20) (11/5)).play_game "t" "A" "A" 1 0).2.home_rating_after
        = ((mkRatingSystem [] [] (1/20) (11/5)).play_game "t" "A" "A" 1 0).2.home_rating_before
          + ((mkRatingSystem [] [] (1/20) (11/5)).play_game "t" "A" "A" 1 0).2.delta_rating) := by
  simp [mkRatingSystem, RatingSystem.play_game, RatingSystem.expected_mov,
    RatingSystem.delta_rating, getD, findRating, setEntry]
  norm_num

/-- **C10**: in a self-game `play_game ts x x hs as'`, with `r` the prior
rating of `x` and `delta = k * ((hs - as') - home_adv)` (the expected
margin of `x` against itself is exactly `home_adv`), the away-side
assignment overwrites the home-side one: the final rating of `x` is
`r - delta`, the record carries `before = r` on both sides and
`after = r - delta` on both sides, and the sum of all ratings changes by
`-delta`. -/
theorem self_game_behavior (rs : RatingSystem) (ts x : String)
    (home_score away_score : ℤ) :
    getD (rs.play_game ts x x home_score away_score).1.ratings x
      = getD rs.ratings x
        - rs.k * (((home_score - away_score : ℤ) : ℚ) - rs.home_adv) ∧
    (rs.play_game ts x x home_score away_score).2.home_rating_before
      = getD rs.ratings x ∧
    (rs.play_game ts x x home_score away_score).2.away_rating_before
      = getD rs.ratings x ∧
    (rs.play_game ts x x home_score away_score).2.home_rating_after
      = getD rs.ratings x
        - rs.k * (((home_score - away_score : ℤ) : ℚ) - rs.home_adv) ∧
    (rs.play_game ts x x home_score away_score).2.away_rating_after
      = getD rs.ratings x
        - rs.k * (((home_score - away_score : ℤ) : ℚ) - rs.home_adv) ∧
    sumRatings (rs.play_game ts x x home_score away_score).1.ratings
      = sumRatings rs.ratings
        - rs.k * (((home_score - away_score : ℤ) : ℚ) - rs.home_adv) := by
  simp only [RatingSystem.play_game, RatingSystem.expected_mov,
    RatingSystem.delta_rating]
  refine ⟨?_, by trivial, by trivial, ?_, ?_, ?_⟩
  · rw [getD_setEntry_self]; ring
  · rw [getD_setEntry_self]; ring
  · rw [getD_setEntry_self]; ring
  · rw [sumRatings_setEntry, sumRatings_setEntry, getD_setEntry_self]; ring

/-- **C4**: the two concrete spec scenarios, starting from an empty
rating map with `k = 0.05` and `home_adv = 2.2`: game `("A","B",90,85)`
gives `expected_mov = 2.2`, `actual_mov = 5`, `delta = 0.14`,
ratings `A = 0.14`, `B = -0.14`; then game `("B","A",80,100)` gives
`expected_mov = 1.92`, `actual_mov = -20`, `delta = -1.096`,
ratings `B = -1.236`, `A = 1.236`. -/
theorem concrete_scenario :
    ((mkRatingSystem [] [] (1/20) (11/5)).play_game "t1" "A" "B" 90 85).2.expected_mov
      = 2.2 ∧
    ((mkRatingSystem [] [] (1/20) (11/5)).play_game "t1" "A" "B" 90 85).2.actual_mov
      = 5 ∧
    ((mkRatingSystem [] [] (1/20) (11/5)).play_game "t1" "A" "B" 90 85).2.delta_rating
      = 0.14 ∧
    getD ((mkRatingSystem [] [] (1/20) (11/5)).play_game "t1" "A" "B" 90 85).1.ratings "A"
      = 0.14 ∧
    getD ((mkRatingSystem [] [] (1/20) (11/5)).play_game "t1" "A" "B" 90 85).1.ratings "B"
      = -0.14 ∧
    ((((mkRatingSystem [] [] (1/20) (11/5)).play_game "t1" "A" "B" 90 85).1.play_game
        "t2" "B" "A" 80 100).2.expected_mov = 1.92 ∧
      (((mkRatingSystem [] [] (1/20) (11/5)).play_game "t1" "A" "B" 90 85).1.play_game
        "t2" "B" "A" 80 100).2.actual_mov = -20 ∧
      (((mkRatingSystem [] [] (1/20) (11/5)).play_game "t1" "A" "B" 90 85).1.play_game
        "t2" "B" "A" 80 100).2.delta_rating = -1.096 ∧
      getD (((mkRatingSystem [] [] (1/20) (11/5)).play_game "t1" "A" "B" 90 85).1.play_game
        "t2" "B" "A" 80 100).1.ratings "B" = -1.236 ∧
      getD (((mkRatingSystem [] [] (1/20) (11/5)).play_game "t1" "A" "B" 90 85).1.play_game
        "t2" "B" "A" 80 100).1.ratings "A" = 1.236) := by
  norm_num [mkRatingSystem, RatingSystem.play_game, RatingSystem.expected_mov,
    RatingSystem.delta_rating, getD, findRating, setEntry,
    show ("A" : String) ≠ "B" from by decide,
    show ("B" : String) ≠ "A" from by decide]

/-- One `play_game` call with distinct participant ids preserves the sum
of all ratings in the map. -/
theorem sumRatings_play_game_ne (rs : RatingSystem) (ts home away : String)
    (home_score away_score : ℤ) (hne : home ≠ away) :
    sumRatings (rs.play_game ts home away home_score away_score).1.ratings
      = sumRatings rs.ratings := by
  simp only [RatingSystem.play_game, RatingSystem.expected_mov,
    RatingSystem.delta_rating]
  rw [sumRatings_setEntry, sumRatings_setEntry,
    getD_setEntry_ne _ _ _ _ (fun hh => hne hh.symm)]
  ring

/-- **C2** (amended: every call in the sequence has distinct home and
away ids).  Any such sequence of `play_game` calls leaves the sum of all
ratings in the map unchanged. -/
theorem zero_sum_invariant (rs : RatingSystem) (gs : List (String × GameInput))
    (h : ∀ g ∈ gs, g.2.home ≠ g.2.away) :
    sumRatings (runGames rs gs).ratings = sumRatings rs.ratings := by
  induction gs generalizing rs with
  | nil => rfl
  | cons p rest ih =>
      obtain ⟨ts, g⟩ := p
      simp only [runGames]
      rw [ih _ (fun g' hg' => h g' (List.mem_cons_of_mem _ hg'))]
      exact sumRatings_play_game_ne rs ts g.home g.away g.home_score
        g.away_score (h (ts, g) (List.mem_cons_self _ _))

/-- Witness for `zero_sum_invariant` on a one-game sequence. -/
theorem zero_sum_invariant_witness :
    ("A" : String) ≠ "B" ∧
    sumRatings (runGames (mkRatingSystem [("A", 1)] [] (1/20) (11/5))
        [("t", ⟨"A", "B", 90, 85⟩)]).ratings
      = sumRatings (mkRatingSystem [("A", 1)] [] (1/20) (11/5)).ratings :=
  ⟨by decide,
   zero_sum_invariant (mkRatingSystem [("A", 1)] [] (1/20) (11/5))
     [("t", ⟨"A", "B", 90, 85⟩)] (by decide)⟩

/-- **C2** counterexample: a sequence consisting of one self-game
changes the sum of the ratings (here from `0` to `0.06`), so the
zero-sum invariant does not hold over ALL input sequences. -/
theorem zero_sum_invariant_cex :
    ¬ (sumRatings (runGames (mkRatingSystem [] [] (1/20) (11/5))
          [("t", ⟨"A", "A", 1, 0⟩)]).ratings
        = sumRatings (mkRatingSystem [] [] (1/20) (11/5)).ratings) := by
  norm_num [mkRatingSystem, runGames, RatingSystem.play_game,
    RatingSystem.expected_mov, RatingSystem.delta_rating, getD, findRating,
    setEntry, sumRatings]

/-- **C8**: with the two ratings and the actual margin fixed, a strictly
larger `home_adv` strictly increases `expected_mov`; with the same
positive `k` it therefore strictly decreases the delta. -/
theorem home_adv_monotonicity (rs1 rs2 : RatingSystem) (hr ar amov : ℚ)
    (hha : rs1.home_adv < rs2.home_adv) (hk : rs1.k = rs2.k) :
    rs1.expected_mov hr ar < rs2.expected_mov hr ar ∧
    (0 < rs1.k →
      rs2.delta_rating amov (rs2.expected_mov hr ar)
        < rs1.delta_rating amov (rs1.expected_mov hr ar)) := by
  constructor
  · simp only [RatingSystem.expected_mov]
    linarith
  · intro hpos
    simp only [RatingSystem.delta_rating, RatingSystem.expected_mov, ← hk]
    have h2 : amov - (hr + rs2.home_adv - ar) < amov - (hr + rs1.home_adv - ar) := by
      linarith
    exact mul_lt_mul_of_pos_left h2 hpos

/-- Witness for `home_adv_monotonicity` at concrete parameters. -/
theorem home_adv_monotonicity_witness :
    (mkRatingSystem [] [] 1 0).home_adv < (mkRatingSystem [] [] 1 1).home_adv ∧
    (mkRatingSystem [] [] 1 0).expected_mov 0 0
      < (mkRatingSystem [] [] 1 1).expected_mov 0 0 ∧
    (mkRatingSystem [] [] 1 1).delta_rating 0
        ((mkRatingSystem [] [] 1 1).expected_mov 0 0)
      < (mkRatingSystem [] [] 1 0).delta_rating 0
        ((mkRatingSystem [] [] 1 0).expected_mov 0 0) :=
  ⟨by norm_num [mkRatingSystem],
   (home_adv_monotonicity (mkRatingSystem [] [] 1 0) (mkRatingSystem [] [] 1 1)
     0 0 0 (by norm_num [mkRatingSystem]) rfl).1,
   (home_adv_monotonicity (mkRatingSystem [] [] 1 0) (mkRatingSystem [] [] 1 1)
     0 0 0 (by norm_num [mkRatingSystem]) rfl).2
     (by norm_num [mkRatingSystem])⟩

/-- An id with no binding reads as rating `0`. -/
theorem getD_of_not_hasKey (m : Ratings) (t : String)
    (h : hasKey m t = false) : getD m t = 0 := by
  unfold hasKey at h
  unfold getD
  cases heq : findRating m t with
  | none => simp
  | some v => rw [heq] at h; simp at h

/-- A bound id reads as its stored rating. -/
theorem getD_of_findRating (m : Ratings) (t : String) (v : ℚ)
    (h : findRating m t = some v) : getD m t = v := by
  simp [getD, h]

/-- **C9**: `get_team_rating` returns the stored rating of a bound id and
`0` for an unseen id (by construction of the embedding it is a total,
state-preserving function); `play_game` never fails on unknown ids: an
unseen participant is priced at rating `0` in the record's before-fields
and both participants have entries in the rating map afterwards. -/
theorem unknown_ids_defaulted (rs : RatingSystem) (t ts home away : String)
    (home_score away_score : ℤ) (v : ℚ) :
    (hasKey rs.ratings t = false → rs.get_team_rating t = 0) ∧
    (findRating rs.ratings t = some v → rs.get_team_rating t = v) ∧
    hasKey (rs.play_game ts home away home_score away_score).1.ratings home
      = true ∧
    hasKey (rs.play_game ts home away home_score away_score).1.ratings away
      = true ∧
    (hasKey rs.ratings home = false →
      (rs.play_game ts home away home_score away_score).2.home_rating_before
        = 0) ∧
    (hasKey rs.ratings away = false →
      (rs.play_game ts home away home_score away_score).2.away_rating_before
        = 0) := by
  refine ⟨fun h => getD_of_not_hasKey _ _ h,
    fun h => getD_of_findRating _ _ _ h, ?_, ?_, ?_, ?_⟩
  · simp only [RatingSystem.play_game]
    rw [hasKey_setEntry]
    by_cases h : home = away
    · simp [h]
    · simp [h, hasKey_setEntry]
  · simp only [RatingSystem.play_game]
    rw [hasKey_setEntry]
    simp
  · intro h
    simp only [RatingSystem.play_game]
    exact getD_of_not_hasKey _ _ h
  · intro h
    simp only [RatingSystem.play_game]
    exact getD_of_not_hasKey _ _ h

/-- Witness for `unknown_ids_defaulted`: `"A"` is unseen and reads `0`,
`"B"` is bound to `1` and reads `1`, and after a game both participants
have entries. -/
theorem unknown_ids_defaulted_witness :
    hasKey (mkRatingSystem [("B", 1)] [] 1 1).ratings "A" = false ∧
    (mkRatingSystem [("B", 1)] [] 1 1).get_team_rating "A" = 0 ∧
    findRating (mkRatingSystem [("B", 1)] [] 1 1).ratings "B" = some 1 ∧
    (mkRatingSystem [("B", 1)] [] 1 1).get_team_rating "B" = 1 ∧
    hasKey ((mkRatingSystem [("B", 1)] [] 1 1).play_game "t" "A" "C" 3 2).1.ratings "A"
      = true ∧
    hasKey ((mkRatingSystem [("B", 1)] [] 1 1).play_game "t" "A" "C" 3 2).1.ratings "C"
      = true ∧
    ((mkRatingSystem [("B", 1)] [] 1 1).play_game "t" "A" "C" 3 2).2.home_rating_before
      = 0 ∧
    ((mkRatingSystem [("B", 1)] [] 1 1).play_game "t" "A" "C" 3 2).2.away_rating_before
      = 0 := by
  have h1 : hasKey (mkRatingSystem [("B", 1)] [] 1 1).ratings "A" = false := by
    simp [mkRatingSystem, hasKey, findRating]
  have h2 : findRating (mkRatingSystem [("B", 1)] [] 1 1).ratings "B" = some 1 := by
    simp [mkRatingSystem, findRating]
  have h3 : hasKey (mkRatingSystem [("B", 1)] [] 1 1).ratings "C" = false := by
    simp [mkRatingSystem, hasKey, findRating]
  exact ⟨h1,
    (unknown_ids_defaulted (mkRatingSystem [("B", 1)] [] 1 1) "A" "t" "A" "C"
      3 2 0).1 h1,
    h2,
    (unknown_ids_defaulted (mkRatingSystem [("B", 1)] [] 1 1) "B" "t" "A" "C"
      3 2 1).2.1 h2,
    (unknown_ids_defaulted (mkRatingSystem [("B", 1)] [] 1 1) "A" "t" "A" "C"
      3 2 0).2.2.1,
    (unknown_ids_defaulted (mkRatingSystem [("B", 1)] [] 1 1) "A" "t" "A" "C"
      3 2 0).2.2.2.1,
    (unknown_ids_defaulted (mkRatingSystem [("B", 1)] [] 1 1) "A" "t" "A" "C"
      3 2 0).2.2.2.2.1 h1,
    (unknown_ids_defaulted (mkRatingSystem [("B", 1)] [] 1 1) "A" "t" "A" "C"
      3 2 0).2.2.2.2.2 h3⟩

/-- **C5**: `predict_game` returns the state unchanged (its body contains
no assignment), computes `expected_mov` by the same formula as step 2 of
`play_game` (unseen ids read as `0`), and maps it through the logistic
function `1 / (1 + exp (-mov / 10))`, which sends margin `0` to exactly
`1/2` and is strictly increasing in the margin. -/
theorem predict_game_spec (rs : RatingSystem) (home away : String) :
    (rs.predict_game home away).1 = rs ∧
    (rs.predict_game home away).2.expected_mov
      = getD rs.ratings home + rs.home_adv - getD rs.ratings away ∧
    (rs.predict_game home away).2.home_win_probability
      = 1 / (1 + Real.exp
          (-(((rs.predict_game home away).2.expected_mov : ℚ) : ℝ) / 10)) ∧
    mov_to_probability 0 = 1/2 ∧
    StrictMono mov_to_probability := by
  refine ⟨rfl, rfl, rfl, ?_, ?_⟩
  · norm_num [mov_to_probability, Real.exp_zero]
  · intro a b hab
    have hb : (0:ℝ) < 1 + Real.exp (-b / 10) := by positivity
    have hlt : Real.exp (-b / 10) < Real.exp (-a / 10) :=
      Real.exp_lt_exp.mpr (by linarith)
    simp only [mov_to_probability]
    exact one_div_lt_one_div_of_lt hb (by linarith)

/-- The state components that determine all future rating updates agree,
and the game histories agree once wall-clock timestamps are erased. -/
def EquivModTs (rs1 rs2 : RatingSystem) : Prop :=
  rs1.ratings = rs2.ratings ∧
  rs1.team_mapping = rs2.team_mapping ∧
  rs1.k = rs2.k ∧
  rs1.home_adv = rs2.home_adv ∧
  rs1.game_history.map stripTs = rs2.game_history.map stripTs

/-- One `play_game` call with the same game on two `EquivModTs` states,
under possibly different timestamps, preserves `EquivModTs`. -/
theorem play_game_equivModTs (rs1 rs2 : RatingSystem)
    (h : EquivModTs rs1 rs2) (ts1 ts2 home away : String)
    (home_score away_score : ℤ) :
    EquivModTs (rs1.play_game ts1 home away home_score away_score).1
      (rs2.play_game ts2 home away home_score away_score).1 := by
  obtain ⟨hr, htm, hk, hha, hh⟩ := h
  refine ⟨?_, ?_, ?_, ?_, ?_⟩ <;>
    simp [RatingSystem.play_game, RatingSystem.expected_mov,
      RatingSystem.delta_rating, stripTs, hr, htm, hk, hha, hh]

/-- Identical game sequences (timestamps aside) preserve `EquivModTs`. -/
theorem runGames_equivModTs (rs1 rs2 : RatingSystem) (h : EquivModTs rs1 rs2)
    (gs1 gs2 : List (String × GameInput))
    (hg : gs1.map Prod.snd = gs2.map Prod.snd) :
    EquivModTs (runGames rs1 gs1) (runGames rs2 gs2) := by
  induction gs1 generalizing rs1 rs2 gs2 with
  | nil =>
      cases gs2 with
      | nil => exact h
      | cons q qs => simp at hg
  | cons p ps ih =>
      cases gs2 with
      | nil => simp at hg
      | cons q qs =>
          obtain ⟨ts1, g1⟩ := p
          obtain ⟨ts2, g2⟩ := q
          simp only [List.map_cons, List.cons.injEq] at hg
          obtain ⟨hgg, hrest⟩ := hg
          subst hgg
          simp only [runGames]
          exact ih _ _ (play_game_equivModTs rs1 rs2 ⟨h.1, h.2.1, h.2.2.1,
            h.2.2.2.1, h.2.2.2.2⟩ ts1 ts2 g1.home g1.away g1.home_score
            g1.away_score) qs hrest

/-- **C7**: determinism.  Two engines built from the same initial
ratings, name mapping and parameters, fed the same ordered game sequence
(with arbitrary, possibly different timestamps), end with identical
rating maps and identical game logs up to the timestamp fields. -/
theorem determinism (init : Ratings) (tm : List (String × String))
    (k ha : ℚ) (gs1 gs2 : List (String × GameInput))
    (hg : gs1.map Prod.snd = gs2.map Prod.snd) :
    (runGames (mkRatingSystem init tm k ha) gs1).ratings
      = (runGames (mkRatingSystem init tm k ha) gs2).ratings ∧
    (runGames (mkRatingSystem init tm k ha) gs1).game_history.map stripTs
      = (runGames (mkRatingSystem init tm k ha) gs2).game_history.map stripTs := by
  have h := runGames_equivModTs (mkRatingSystem init tm k ha)
    (mkRatingSystem init tm k ha) ⟨rfl, rfl, rfl, rfl, rfl⟩ gs1 gs2 hg
  exact ⟨h.1, h.2.2.2.2⟩

/-- Witness for `determinism`: the same game under two different
timestamps. -/
theorem determinism_witness :
    ([("t1", (⟨"A", "B", 3, 2⟩ : GameInput))].map Prod.snd
      = [("t2", (⟨"A", "B", 3, 2⟩ : GameInput))].map Prod.snd) ∧
    (runGames (mkRatingSystem [] [] 1 1)
        [("t1", (⟨"A", "B", 3, 2⟩ : GameInput))]).ratings
      = (runGames (mkRatingSystem [] [] 1 1)
        [("t2", (⟨"A", "B", 3, 2⟩ : GameInput))]).ratings ∧
    (runGames (mkRatingSystem [] [] 1 1)
        [("t1", (⟨"A", "B", 3, 2⟩ : GameInput))]).game_history.map stripTs
      = (runGames (mkRatingSystem [] [] 1 1)
        [("t2", (⟨"A", "B", 3, 2⟩ : GameInput))]).game_history.map stripTs :=
  ⟨rfl,
   (determinism [] [] 1 1 [("t1", ⟨"A", "B", 3, 2⟩)]
     [("t2", ⟨"A", "B", 3, 2⟩)] rfl).1,
   (determinism [] [] 1 1 [("t1", ⟨"A", "B", 3, 2⟩)]
     [("t2", ⟨"A", "B", 3, 2⟩)] rfl).2⟩

/-- The games stored in the log of `runGames` are the input games, in
order, after the games already in the log. -/
theorem map_inputOfRecord_runGames (rs : RatingSystem)
    (gs : List (String × GameInput)) :
    (runGames rs gs).game_history.map inputOfRecord
      = rs.game_history.map inputOfRecord ++ gs.map Prod.snd := by
  induction gs generalizing rs with
  | nil => simp [runGames]
  | cons p rest ih =>
      obtain ⟨ts, g⟩ := p
      simp only [runGames]
      rw [ih]
      simp [RatingSystem.play_game, inputOfRecord]

/-- **C6**: replay equivalence.  Build an engine from `init` and run any
game sequence; then build a fresh engine from the same `init` and
parameters and replay the logged records' stored
(home, away, home score, away score) in log order, under any timestamps.
The final rating maps coincide. -/
theorem replay_equivalence (init : Ratings) (tm : List (String × String))
    (k ha : ℚ) (gs : List (String × GameInput)) (ts2 : List String)
    (hlen : ts2.length
      = (runGames (mkRatingSystem init tm k ha) gs).game_history.length) :
    (runGames (mkRatingSystem init tm k ha)
        (ts2.zip ((runGames (mkRatingSystem init tm k ha) gs).game_history.map
          inputOfRecord))).ratings
      = (runGames (mkRatingSystem init tm k ha) gs).ratings := by
  have hmap : (runGames (mkRatingSystem init tm k ha) gs).game_history.map
      inputOfRecord = gs.map Prod.snd := by
    rw [map_inputOfRecord_runGames]
    simp [mkRatingSystem]
  have hlen2 : ((runGames (mkRatingSystem init tm k ha) gs).game_history.map
      inputOfRecord).length ≤ ts2.length := by
    rw [List.length_map, hlen]
  have hzip : (ts2.zip ((runGames (mkRatingSystem init tm k ha) gs).game_history.map
      inputOfRecord)).map Prod.snd = gs.map Prod.snd := by
    rw [List.map_snd_zip _ _ hlen2, hmap]
  exact (runGames_equivModTs _ _ ⟨rfl, rfl, rfl, rfl, rfl⟩ _ _ hzip).1

/-- Witness for `replay_equivalence` on a one-game history. -/
theorem replay_equivalence_witness :
    (["u"].length
      = (runGames (mkRatingSystem [] [] 1 1)
          [("t", (⟨"A", "B", 3, 2⟩ : GameInput))]).game_history.length) ∧
    (runGames (mkRatingSystem [] [] 1 1)
        (["u"].zip ((runGames (mkRatingSystem [] [] 1 1)
          [("t", (⟨"A", "B", 3, 2⟩ : GameInput))]).game_history.map
            inputOfRecord))).ratings
      = (runGames (mkRatingSystem [] [] 1 1)
          [("t", (⟨"A", "B", 3, 2⟩ : GameInput))]).ratings :=
  ⟨rfl,
   replay_equivalence [] [] 1 1 [("t", ⟨"A", "B", 3, 2⟩)] ["u"] rfl⟩

end NBL
